import Mathlib

/-!
Shallow embedding of the mission / application / booking / conversation
lifecycle of the project-management backend.

The controllers (`applicationController.js`, `bookingController.js`,
`conversationController.js`) are modelled as pure functions over an explicit
database state `DB`.  Each HTTP handler becomes a function returning a pair
of an `Except ApiError α` (the JSON response: `Except.error ⟨status, msg⟩`
for an error response, `Except.ok data` for a success) and the database
state after the handler ran.  Every early `return res.status(...)` in the
source happens before any `create`/`save` call, so error paths return the
input database unchanged, exactly as in the source.

Mongoose documents become Lean structures (`Application` from the schema in
`src/unnamed/part_007`, `Booking` from `src/models/Booking.js`, `Mission`
from `src/unnamed/part_005`); ObjectIds are modelled as `Nat`; `Date`
values as `Nat` clock ticks supplied by a `now` parameter; JS numbers used
for money (`hours`, `hourlyRate`, `totalAmount`) as `Rat`.
`Model.findById` / `Model.findOne` become `List.find?`; `doc.save()`
becomes replacement-by-id in the corresponding list; `Model.create`
appends a fresh document using the `nextId` counter.
-/

namespace PM

/-- Mongo ObjectIds, modelled as naturals. -/
abbrev ObjectId := Nat

/-- User roles checked by the controllers: `student`, `customer`, `admin`. -/
inductive Role where
  | student
  | customer
  | admin
deriving DecidableEq, Repr

/-- Mission statuses, from the `missionSchema` enum. -/
inductive MissionStatus where
  | open_
  | in_discussion
  | in_progress
  | completed
  | cancelled
deriving DecidableEq, Repr

/-- Application statuses, from the `applicationSchema` enum. -/
inductive AppStatus where
  | pending
  | accepted
  | rejected
deriving DecidableEq, Repr

/-- Booking statuses, from the `bookingSchema` enum. -/
inductive BookingStatus where
  | pending
  | confirmed
  | completed
  | cancelled
deriving DecidableEq, Repr

/-- The authenticated requester (`req.user`): id and role. -/
structure User where
  id : ObjectId
  role : Role
deriving DecidableEq, Repr

/-- Mission document: the fields the lifecycle controllers read or write. -/
structure Mission where
  id : ObjectId
  clientId : ObjectId
  status : MissionStatus
deriving DecidableEq, Repr

/-- Application document, from `applicationSchema` (src/unnamed/part_007). -/
structure Application where
  id : ObjectId
  missionId : ObjectId
  studentId : ObjectId
  coverLetter : String
  status : AppStatus
  acceptedAt : Option Nat
  rejectedAt : Option Nat
  rejectionReason : Option String
deriving DecidableEq, Repr

/-- Booking document, from `bookingSchema` (src/models/Booking.js). -/
structure Booking where
  id : ObjectId
  clientId : ObjectId
  studentId : ObjectId
  date : Nat
  hours : Rat
  description : String
  hourlyRate : Rat
  totalAmount : Rat
  status : BookingStatus
  confirmedAt : Option Nat
  completedAt : Option Nat
  cancelledAt : Option Nat
  cancellationReason : Option String
deriving DecidableEq, Repr

/-- Conversation document: unique per (clientId, studentId, missionId|null). -/
structure Conversation where
  id : ObjectId
  clientId : ObjectId
  studentId : ObjectId
  missionId : Option ObjectId
  lastMessage : Option String
  lastMessageAt : Option Nat
deriving DecidableEq, Repr

/-- The document store: one list per collection, plus a fresh-id counter. -/
structure DB where
  users : List User
  missions : List Mission
  applications : List Application
  bookings : List Booking
  conversations : List Conversation
  nextId : ObjectId
deriving DecidableEq, Repr

/-- An error response: HTTP status code and message, as produced by
`res.status(code).json({success: false, message})`. -/
structure ApiError where
  status : Nat
  message : String
deriving DecidableEq, Repr

/-- Model of `doc.save()` for an Application: replace the stored document
with the same id. -/
def saveApplication (db : DB) (a : Application) : DB :=
  { db with applications := db.applications.map fun x => if x.id == a.id then a else x }

/-- Model of `doc.save()` for a Mission. -/
def saveMission (db : DB) (m : Mission) : DB :=
  { db with missions := db.missions.map fun x => if x.id == m.id then m else x }

/-- Model of `doc.save()` for a Booking. -/
def saveBooking (db : DB) (b : Booking) : DB :=
  { db with bookings := db.bookings.map fun x => if x.id == b.id then b else x }

/-- Model of `createApplication` (applicationController.js, lines 11-79).
`mission_id` is `none` when the request body lacks the field (the JS
`!mission_id` check); `cover_letter` is the optional body field. -/
def createApplication (db : DB) (user : User) (mission_id : Option ObjectId)
    (cover_letter : Option String) : Except ApiError Application × DB :=
  if user.role ≠ Role.student then
    (Except.error ⟨403, "Only students can create applications"⟩, db)
  else
    match mission_id with
    | none => (Except.error ⟨400, "Mission ID is required"⟩, db)
    | some mid =>
      match db.missions.find? (fun m => m.id == mid) with
      | none => (Except.error ⟨404, "Mission not found"⟩, db)
      | some mission =>
        if mission.status ≠ MissionStatus.open_ then
          (Except.error ⟨400, "Mission is not open for applications"⟩, db)
        else
          match db.applications.find? (fun a => a.missionId == mid && a.studentId == user.id) with
          | some _ => (Except.error ⟨400, "You have already applied to this mission"⟩, db)
          | none =>
            let application : Application :=
              { id := db.nextId
                missionId := mid
                studentId := user.id
                coverLetter := (cover_letter.map String.trim).getD ""
                status := AppStatus.pending
                acceptedAt := none
                rejectedAt := none
                rejectionReason := none }
            (Except.ok application,
              { db with
                  applications := db.applications ++ [application]
                  nextId := db.nextId + 1 })

/-- The cover-letter update step of `updateApplication`
(applicationController.js, lines 191-193): only applied when the body has a
`cover_letter` and the caller is the applicant. -/
def applyCoverLetter (application : Application) (cover_letter : Option String)
    (isApplicant : Bool) : Application :=
  if cover_letter.isSome && isApplicant then
    { application with coverLetter := (cover_letter.getD "").trim }
  else application

/-- The status-write step of `updateApplication` (applicationController.js,
lines 211-221): sets the status unconditionally and stamps
`acceptedAt`/`rejectedAt`. -/
def applyAppStatus (a : Application) (st : AppStatus) (now : Nat) : Application :=
  if st == AppStatus.accepted then
    { a with status := st, acceptedAt := some now }
  else if st == AppStatus.rejected then
    { a with status := st, rejectedAt := some now }
  else
    { a with status := st }

/-- The mission side effect of `updateApplication` (applicationController.js,
lines 214-218): on acceptance, the referenced mission (when present) is
forced to `in_discussion` and saved. -/
def missionAcceptEffect (db : DB) (missionOpt : Option Mission) (st : AppStatus) : DB :=
  if st == AppStatus.accepted then
    match missionOpt with
    | some mission => saveMission db { mission with status := MissionStatus.in_discussion }
    | none => db
  else db

/-- Model of `updateApplication` (applicationController.js, lines 171-235).
`status` is `none` when the body carries no status; `now` is the clock
value used for `new Date()`. -/
def updateApplication (db : DB) (user : User) (id : ObjectId)
    (status : Option AppStatus) (cover_letter : Option String) (now : Nat) :
    Except ApiError Application × DB :=
  match db.applications.find? (fun a => a.id == id) with
  | none => (Except.error ⟨404, "Application not found"⟩, db)
  | some application =>
    let missionOpt := db.missions.find? (fun m => m.id == application.missionId)
    let isOwner := missionOpt.any fun m => m.clientId == user.id
    let isApplicant := application.studentId == user.id
    let application1 := applyCoverLetter application cover_letter isApplicant
    match status with
    | none => (Except.ok application1, saveApplication db application1)
    | some st =>
      if st == AppStatus.accepted && !isOwner then
        (Except.error ⟨403, "Only mission owner can accept applications"⟩, db)
      else if st == AppStatus.rejected && !isOwner then
        (Except.error ⟨403, "Only mission owner can reject applications"⟩, db)
      else
        let application2 := applyAppStatus application1 st now
        let db1 := missionAcceptEffect db missionOpt st
        (Except.ok application2, saveApplication db1 application2)

/-- Model of `acceptApplication` (applicationController.js, lines 242-290). -/
def acceptApplication (db : DB) (user : User) (id : ObjectId) (now : Nat) :
    Except ApiError Application × DB :=
  match db.applications.find? (fun a => a.id == id) with
  | none => (Except.error ⟨404, "Application not found"⟩, db)
  | some application =>
    match db.missions.find? (fun m => m.id == application.missionId) with
    | none => (Except.error ⟨404, "Mission not found"⟩, db)
    | some mission =>
      if mission.clientId ≠ user.id then
        (Except.error ⟨403, "Only mission owner can accept applications"⟩, db)
      else
        let application1 := { application with
          status := AppStatus.accepted, acceptedAt := some now }
        let db1 := saveApplication db application1
        let db2 := saveMission db1 { mission with status := MissionStatus.in_discussion }
        (Except.ok application1, db2)

/-- Model of `rejectApplication` (applicationController.js, lines 297-345).
`rejection_reason` is kept only when truthy (nonempty), as in the JS
`if (rejection_reason)` check. -/
def rejectApplication (db : DB) (user : User) (id : ObjectId)
    (rejection_reason : Option String) (now : Nat) :
    Except ApiError Application × DB :=
  match db.applications.find? (fun a => a.id == id) with
  | none => (Except.error ⟨404, "Application not found"⟩, db)
  | some application =>
    match db.missions.find? (fun m => m.id == application.missionId) with
    | none => (Except.error ⟨404, "Mission not found"⟩, db)
    | some mission =>
      if mission.clientId ≠ user.id then
        (Except.error ⟨403, "Only mission owner can reject applications"⟩, db)
      else
        let reason1 :=
          match rejection_reason with
          | some r => if r.isEmpty then application.rejectionReason else some r.trim
          | none => application.rejectionReason
        let application1 := { application with
          status := AppStatus.rejected, rejectedAt := some now, rejectionReason := reason1 }
        let db1 := saveApplication db application1
        (Except.ok application1, db1)

/-- Rendering of booking statuses, used in the transition-error message. -/
def BookingStatus.str : BookingStatus → String
  | BookingStatus.pending => "pending"
  | BookingStatus.confirmed => "confirmed"
  | BookingStatus.completed => "completed"
  | BookingStatus.cancelled => "cancelled"

/-- The `validTransitions` table of `updateBooking`
(bookingController.js, lines 173-178). -/
def validTransitions : BookingStatus → List BookingStatus
  | BookingStatus.pending => [BookingStatus.confirmed, BookingStatus.cancelled]
  | BookingStatus.confirmed => [BookingStatus.completed, BookingStatus.cancelled]
  | BookingStatus.completed => []
  | BookingStatus.cancelled => []

/-- Model of `createBooking` (bookingController.js, lines 10-63).  The five
fields are `Option`-valued; the JS required-fields check treats `0` and the
empty string as missing (falsy), which the `truthy` guards reproduce. -/
def createBooking (db : DB) (user : User) (studentId : Option ObjectId)
    (date : Option Nat) (hours : Option Rat) (description : Option String)
    (hourlyRate : Option Rat) : Except ApiError Booking × DB :=
  let clientId := user.id
  match studentId, date, hours, description, hourlyRate with
  | some sid, some d, some h, some desc, some rate =>
    if h == 0 || desc.isEmpty || rate == 0 then
      (Except.error ⟨400,
        "Please provide all required fields: studentId, date, hours, description, hourlyRate"⟩, db)
    else
      match db.users.find? (fun u => u.id == sid) with
      | none => (Except.error ⟨404, "Student not found"⟩, db)
      | some student =>
        if student.role ≠ Role.student then
          (Except.error ⟨404, "Student not found"⟩, db)
        else if clientId == sid then
          (Except.error ⟨400, "You cannot book yourself"⟩, db)
        else
          let totalAmount := rate * h
          let booking : Booking :=
            { id := db.nextId
              clientId := clientId
              studentId := sid
              date := d
              hours := h
              description := desc
              hourlyRate := rate
              totalAmount := totalAmount
              status := BookingStatus.pending
              confirmedAt := none
              completedAt := none
              cancelledAt := none
              cancellationReason := none }
          (Except.ok booking,
            { db with bookings := db.bookings ++ [booking], nextId := db.nextId + 1 })
  | _, _, _, _, _ =>
    (Except.error ⟨400,
      "Please provide all required fields: studentId, date, hours, description, hourlyRate"⟩, db)

/-- The status-and-timestamp write of `updateBooking` (bookingController.js,
lines 195-207): sets the status and stamps the matching `*At` field; a
truthy cancellation reason is recorded on cancellation. -/
def applyBookingStatus (booking : Booking) (st : BookingStatus)
    (cancellationReason : Option String) (now : Nat) : Booking :=
  let booking1 := { booking with status := st }
  if st == BookingStatus.confirmed then
    { booking1 with confirmedAt := some now }
  else if st == BookingStatus.completed then
    { booking1 with completedAt := some now }
  else if st == BookingStatus.cancelled then
    { booking1 with
        cancelledAt := some now
        cancellationReason :=
          match cancellationReason with
          | some r => if r.isEmpty then booking1.cancellationReason else some r
          | none => booking1.cancellationReason }
  else booking1

/-- Model of `updateBooking` (bookingController.js, lines 145-221). -/
def updateBooking (db : DB) (user : User) (id : ObjectId)
    (status : Option BookingStatus) (cancellationReason : Option String) (now : Nat) :
    Except ApiError Booking × DB :=
  match db.bookings.find? (fun b => b.id == id) with
  | none => (Except.error ⟨404, "Booking not found"⟩, db)
  | some booking =>
    let isClient := booking.clientId == user.id
    let isStudent := booking.studentId == user.id
    if !isClient && !isStudent then
      (Except.error ⟨403, "Not authorized to update this booking"⟩, db)
    else
      match status with
      | none => (Except.ok booking, saveBooking db booking)
      | some st =>
        if !(validTransitions booking.status).contains st then
          (Except.error ⟨400,
            "Cannot change status from " ++ booking.status.str ++ " to " ++ st.str⟩, db)
        else if st == BookingStatus.confirmed && !isStudent then
          (Except.error ⟨403, "Only the student can confirm a booking"⟩, db)
        else
          let booking2 := applyBookingStatus booking st cancellationReason now
          (Except.ok booking2, saveBooking db booking2)

/-- Resolution of the (client, student) pair in `createOrGetConversation`
(conversationController.js, lines 21-44): a student caller is the student
and must supply the client id; any other caller is the client and must
supply the student id. -/
def resolveConvParties (user : User) (studentId clientId : Option ObjectId) :
    Except ApiError (ObjectId × ObjectId) :=
  if user.role == Role.student then
    match clientId with
    | none => Except.error ⟨400, "Client ID is required when creating conversation as student"⟩
    | some cid => Except.ok (cid, user.id)
  else
    match studentId with
    | none => Except.error ⟨400, "Student ID is required when creating conversation as client"⟩
    | some sid => Except.ok (user.id, sid)

/-- Model of `createOrGetConversation` (conversationController.js, lines 11-89). -/
def createOrGetConversation (db : DB) (user : User)
    (studentId clientId missionId : Option ObjectId) :
    Except ApiError Conversation × DB :=
  match resolveConvParties user studentId clientId with
  | Except.error e => (Except.error e, db)
  | Except.ok (resolvedClientId, resolvedStudentId) =>
    match db.users.find? (fun u => u.id == resolvedStudentId) with
    | none => (Except.error ⟨404, "Student not found"⟩, db)
    | some student =>
      if student.role ≠ Role.student then
        (Except.error ⟨404, "Student not found"⟩, db)
      else
        match db.users.find? (fun u => u.id == resolvedClientId) with
        | none => (Except.error ⟨404, "Client not found"⟩, db)
        | some client =>
          if client.role ≠ Role.customer then
            (Except.error ⟨404, "Client not found"⟩, db)
          else
            match db.conversations.find? (fun c =>
                c.clientId == resolvedClientId && c.studentId == resolvedStudentId &&
                c.missionId == missionId) with
            | some conversation => (Except.ok conversation, db)
            | none =>
              let conversation : Conversation :=
                { id := db.nextId
                  clientId := resolvedClientId
                  studentId := resolvedStudentId
                  missionId := missionId
                  lastMessage := none
                  lastMessageAt := none }
              (Except.ok conversation,
                { db with
                    conversations := db.conversations ++ [conversation]
                    nextId := db.nextId + 1 })

/-- At most one entry per (missionId, studentId) pair in a list of
applications: this is the invariant declared by the unique composite index
`applicationSchema.index({ missionId: 1, studentId: 1 }, { unique: true })`
(src/unnamed/part_007, line 53). -/
abbrev appsUnique (l : List Application) : Prop :=
  ∀ a ∈ l, ∀ b ∈ l, a.missionId = b.missionId → a.studentId = b.studentId → a = b

/-- The uniqueness invariant on the whole store. -/
abbrev appUnique (db : DB) : Prop := appsUnique db.applications

/- Concrete fixtures used by witnesses and counterexamples. -/

/-- A student user (id 2). -/
def uStudent : User := ⟨2, Role.student⟩

/-- A customer user (id 1), owner of the sample mission. -/
def uClient : User := ⟨1, Role.customer⟩

/-- Mission 10, owned by user 1, still open. -/
def missionOpen : Mission := ⟨10, 1, MissionStatus.open_⟩

/-- Mission 10 after an application was accepted. -/
def missionDisc : Mission := ⟨10, 1, MissionStatus.in_discussion⟩

/-- A pending application (id 20) of student 2 to mission 10. -/
def appPending : Application := ⟨20, 10, 2, "", AppStatus.pending, none, none, none⟩

/-- The same application after acceptance. -/
def appAccepted : Application := ⟨20, 10, 2, "", AppStatus.accepted, some 5, none, none⟩

/-- Store with an open mission and no applications. -/
def dbBase : DB := ⟨[uClient, uStudent], [missionOpen], [], [], [], 20⟩

/-- Store with a pending application of student 2 to open mission 10. -/
def dbPending : DB := ⟨[uClient, uStudent], [missionOpen], [appPending], [], [], 21⟩

/-- Store after that application was accepted: the application is
`accepted` and the mission is `in_discussion`. -/
def dbAccepted : DB := ⟨[uClient, uStudent], [missionDisc], [appAccepted], [], [], 21⟩

/-- A pending booking (id 30) between client 1 and student 2,
3 hours at rate 20, total 60. -/
def bookingPending : Booking :=
  ⟨30, 1, 2, 100, 3, "work", 20, 60, BookingStatus.pending, none, none, none, none⟩

/-- The same booking in the terminal `completed` state. -/
def bookingCompleted : Booking :=
  ⟨30, 1, 2, 100, 3, "work", 20, 60, BookingStatus.completed, none, some 9, none, none⟩

/-- Store with the pending booking. -/
def dbBooking : DB := ⟨[uClient, uStudent], [], [], [bookingPending], [], 31⟩

/-- The booking created by client 1 for student 2 in the base store:
3 hours at rate 20, total 60. -/
def bookingNew : Booking :=
  ⟨20, 1, 2, 100, 3, "work", 20, 20 * 3, BookingStatus.pending, none, none, none, none⟩

/-- The base store after that booking was created. -/
def dbAfterCreate : DB := ⟨[uClient, uStudent], [missionOpen], [], [bookingNew], [], 21⟩

/-- The conversation between client 1 and student 2 (no mission). -/
def convCS : Conversation := ⟨20, 1, 2, none, none, none⟩

/-- Store after client 1 opened the conversation with student 2. -/
def dbConv : DB := ⟨[uClient, uStudent], [missionOpen], [], [], [convCS], 21⟩

/-- Store with the completed booking. -/
def dbBookingDone : DB := ⟨[uClient, uStudent], [], [], [bookingCompleted], [], 31⟩

/- General-purpose helper lemmas. -/

theorem saveMission_applications (db : DB) (m : Mission) :
    (saveMission db m).applications = db.applications := rfl

theorem saveApplication_missions (db : DB) (a : Application) :
    (saveApplication db a).missions = db.missions := rfl

theorem saveApplication_applications (db : DB) (a : Application) :
    (saveApplication db a).applications
      = db.applications.map fun x => if x.id == a.id then a else x := rfl

theorem saveBooking_bookings (db : DB) (b : Booking) :
    (saveBooking db b).bookings
      = db.bookings.map fun x => if x.id == b.id then b else x := rfl

theorem applyCoverLetter_id (a : Application) (cl : Option String) (b : Bool) :
    (applyCoverLetter a cl b).id = a.id := by
  unfold applyCoverLetter; split <;> rfl

theorem applyCoverLetter_missionId (a : Application) (cl : Option String) (b : Bool) :
    (applyCoverLetter a cl b).missionId = a.missionId := by
  unfold applyCoverLetter; split <;> rfl

theorem applyCoverLetter_studentId (a : Application) (cl : Option String) (b : Bool) :
    (applyCoverLetter a cl b).studentId = a.studentId := by
  unfold applyCoverLetter; split <;> rfl

theorem applyAppStatus_id (a : Application) (st : AppStatus) (now : Nat) :
    (applyAppStatus a st now).id = a.id := by
  unfold applyAppStatus; split_ifs <;> rfl

theorem applyAppStatus_missionId (a : Application) (st : AppStatus) (now : Nat) :
    (applyAppStatus a st now).missionId = a.missionId := by
  unfold applyAppStatus; split_ifs <;> rfl

theorem applyAppStatus_studentId (a : Application) (st : AppStatus) (now : Nat) :
    (applyAppStatus a st now).studentId = a.studentId := by
  unfold applyAppStatus; split_ifs <;> rfl

theorem applyAppStatus_status (a : Application) (st : AppStatus) (now : Nat) :
    (applyAppStatus a st now).status = st := by
  unfold applyAppStatus; split_ifs <;> rfl

theorem missionAcceptEffect_applications (db : DB) (mo : Option Mission) (st : AppStatus) :
    (missionAcceptEffect db mo st).applications = db.applications := by
  unfold missionAcceptEffect
  split
  · split <;> rfl
  · rfl

theorem applyBookingStatus_status (b : Booking) (st : BookingStatus)
    (cr : Option String) (now : Nat) :
    (applyBookingStatus b st cr now).status = st := by
  unfold applyBookingStatus; split_ifs <;> rfl

theorem applyBookingStatus_id (b : Booking) (st : BookingStatus)
    (cr : Option String) (now : Nat) :
    (applyBookingStatus b st cr now).id = b.id := by
  unfold applyBookingStatus; split_ifs <;> rfl

theorem applyBookingStatus_totalAmount (b : Booking) (st : BookingStatus)
    (cr : Option String) (now : Nat) :
    (applyBookingStatus b st cr now).totalAmount = b.totalAmount := by
  unfold applyBookingStatus; split_ifs <;> rfl

theorem applyBookingStatus_hourlyRate (b : Booking) (st : BookingStatus)
    (cr : Option String) (now : Nat) :
    (applyBookingStatus b st cr now).hourlyRate = b.hourlyRate := by
  unfold applyBookingStatus; split_ifs <;> rfl

theorem applyBookingStatus_hours (b : Booking) (st : BookingStatus)
    (cr : Option String) (now : Nat) :
    (applyBookingStatus b st cr now).hours = b.hours := by
  unfold applyBookingStatus; split_ifs <;> rfl

theorem appsUnique_append (l : List Application) (a : Application)
    (h : appsUnique l)
    (ha : ∀ x ∈ l, ¬(x.missionId = a.missionId ∧ x.studentId = a.studentId)) :
    appsUnique (l ++ [a]) := by
  intro x hx y hy hm hs
  rcases List.mem_append.mp hx with hx' | hx'
  · rcases List.mem_append.mp hy with hy' | hy'
    · exact h x hx' y hy' hm hs
    · have : y = a := List.mem_singleton.mp hy'
      subst this
      exact absurd ⟨hm, hs⟩ (ha x hx')
  · have : x = a := List.mem_singleton.mp hx'
    subst this
    rcases List.mem_append.mp hy with hy' | hy'
    · exact absurd ⟨hm.symm, hs.symm⟩ (ha y hy')
    · exact (List.mem_singleton.mp hy').symm

theorem appsUnique_save (l : List Application) (a0 a1 : Application)
    (h0 : a0 ∈ l) (hid : a1.id = a0.id) (hm : a1.missionId = a0.missionId)
    (hs : a1.studentId = a0.studentId) (h : appsUnique l) :
    appsUnique (l.map fun x => if x.id == a1.id then a1 else x) := by
  intro x hx y hy hmxy hsxy
  rcases List.mem_map.mp hx with ⟨x0, hx0, hfx⟩
  rcases List.mem_map.mp hy with ⟨y0, hy0, hfy⟩
  have hxval : x = a1 ∨ (x = x0 ∧ x0.id ≠ a1.id) := by
    by_cases ex : x0.id = a1.id
    · left; rw [← hfx]; simp [ex]
    · right; exact ⟨by rw [← hfx]; simp [ex], ex⟩
  have hyval : y = a1 ∨ (y = y0 ∧ y0.id ≠ a1.id) := by
    by_cases ey : y0.id = a1.id
    · left; rw [← hfy]; simp [ey]
    · right; exact ⟨by rw [← hfy]; simp [ey], ey⟩
  rcases hxval with hx1 | ⟨hx1, ex⟩ <;> rcases hyval with hy1 | ⟨hy1, ey⟩
  · rw [hx1, hy1]
  · exfalso
    have h1 : a0.missionId = y0.missionId := by rw [← hm, ← hx1, hmxy, hy1]
    have h2 : a0.studentId = y0.studentId := by rw [← hs, ← hx1, hsxy, hy1]
    have he : a0 = y0 := h a0 h0 y0 hy0 h1 h2
    exact ey (by rw [← he, ← hid])
  · exfalso
    have h1 : x0.missionId = a0.missionId := by rw [← hx1, hmxy, hy1, hm]
    have h2 : x0.studentId = a0.studentId := by rw [← hx1, hsxy, hy1, hs]
    have he : x0 = a0 := h x0 hx0 a0 h0 h1 h2
    exact ex (by rw [he, ← hid])
  · rw [hx1, hy1]
    exact h x0 hx0 y0 hy0 (by rw [← hx1, hmxy, hy1]) (by rw [← hx1, hsxy, hy1])

theorem appUnique_createApplication (db : DB) (user : User) (mid : Option ObjectId)
    (cl : Option String) (h : appUnique db) :
    appUnique (createApplication db user mid cl).2 := by
  unfold createApplication
  split
  · exact h
  · split
    · exact h
    · split
      · exact h
      · split
        · exact h
        · split
          · exact h
          · next mi _ hfindm _ hfind =>
            refine appsUnique_append db.applications _ h ?_
            intro x hx hpair
            have := List.find?_eq_none.mp hfind x hx
            simp only [Bool.and_eq_true, beq_iff_eq, not_and] at this
            exact this hpair.1 hpair.2

theorem appUnique_updateApplication (db : DB) (user : User) (id : ObjectId)
    (st : Option AppStatus) (cl : Option String) (now : Nat) (h : appUnique db) :
    appUnique (updateApplication db user id st cl now).2 := by
  unfold updateApplication
  split
  · exact h
  next application hfind =>
    have h0 : application ∈ db.applications := List.mem_of_find?_eq_some hfind
    split
    · show appsUnique (saveApplication db _).applications
      rw [saveApplication_applications]
      exact appsUnique_save db.applications application _ h0
        (applyCoverLetter_id application cl _)
        (applyCoverLetter_missionId application cl _)
        (applyCoverLetter_studentId application cl _) h
    · next stv =>
      dsimp only
      split
      · exact h
      · split
        · exact h
        · show appsUnique (saveApplication (missionAcceptEffect db _ stv) _).applications
          rw [saveApplication_applications, missionAcceptEffect_applications]
          refine appsUnique_save db.applications application _ h0 ?_ ?_ ?_ h
          · rw [applyAppStatus_id, applyCoverLetter_id]
          · rw [applyAppStatus_missionId, applyCoverLetter_missionId]
          · rw [applyAppStatus_studentId, applyCoverLetter_studentId]

theorem appUnique_acceptApplication (db : DB) (user : User) (id : ObjectId)
    (now : Nat) (h : appUnique db) :
    appUnique (acceptApplication db user id now).2 := by
  unfold acceptApplication
  split
  · exact h
  next application hfind =>
    have h0 : application ∈ db.applications := List.mem_of_find?_eq_some hfind
    split
    · exact h
    · split
      · exact h
      · show appsUnique (saveMission (saveApplication db _) _).applications
        rw [saveMission_applications, saveApplication_applications]
        exact appsUnique_save db.applications application _ h0 rfl rfl rfl h

theorem appUnique_rejectApplication (db : DB) (user : User) (id : ObjectId)
    (rr : Option String) (now : Nat) (h : appUnique db) :
    appUnique (rejectApplication db user id rr now).2 := by
  unfold rejectApplication
  split
  · exact h
  next application hfind =>
    have h0 : application ∈ db.applications := List.mem_of_find?_eq_some hfind
    split
    · exact h
    · split
      · exact h
      · show appsUnique (saveApplication db _).applications
        rw [saveApplication_applications]
        exact appsUnique_save db.applications application _ h0 rfl rfl rfl h

theorem createBooking_applications (db : DB) (user : User) (sid : Option ObjectId)
    (d : Option Nat) (hrs : Option Rat) (desc : Option String) (rate : Option Rat) :
    ((createBooking db user sid d hrs desc rate).2).applications = db.applications := by
  unfold createBooking
  dsimp only
  repeat' split
  all_goals rfl

theorem updateBooking_applications (db : DB) (user : User) (id : ObjectId)
    (st : Option BookingStatus) (cr : Option String) (now : Nat) :
    ((updateBooking db user id st cr now).2).applications = db.applications := by
  unfold updateBooking
  dsimp only
  repeat' split
  all_goals rfl

theorem createOrGetConversation_applications (db : DB) (user : User)
    (sid cid mid : Option ObjectId) :
    ((createOrGetConversation db user sid cid mid).2).applications = db.applications := by
  unfold createOrGetConversation
  dsimp only
  repeat' split
  all_goals rfl

theorem createApplication_refuses_duplicate (db : DB) (user : User) (mi : ObjectId)
    (cl : Option String)
    (hdup : ∃ a ∈ db.applications, a.missionId = mi ∧ a.studentId = user.id) :
    ∃ e, createApplication db user (some mi) cl = (Except.error e, db) := by
  obtain ⟨a, ha, ham, has⟩ := hdup
  unfold createApplication
  split
  · exact ⟨_, rfl⟩
  · dsimp only
    split
    · exact ⟨_, rfl⟩
    · split
      · exact ⟨_, rfl⟩
      · split
        · exact ⟨_, rfl⟩
        · next hfind =>
          exact absurd (List.find?_eq_none.mp hfind a ha) (by simp [ham, has])

/-- C1: for any (missionId, studentId) pair, at most one Application record
ever exists.  `createApplication` refuses (returns an error response and
leaves the store untouched) whenever an Application for the pair is already
stored, and the pair-uniqueness invariant — the one declared as the unique
composite index on (missionId, studentId) in the application schema — is
preserved by every operation of the lifecycle controllers, whatever its
outcome. -/
theorem application_pair_uniqueness_invariant (db : DB) (h : appUnique db) :
    (∀ (user : User) (mi : ObjectId) (cl : Option String),
        (∃ a ∈ db.applications, a.missionId = mi ∧ a.studentId = user.id) →
        ∃ e, createApplication db user (some mi) cl = (Except.error e, db)) ∧
    (∀ (user : User) (mid : Option ObjectId) (cl : Option String),
        appUnique (createApplication db user mid cl).2) ∧
    (∀ (user : User) (id : ObjectId) (st : Option AppStatus) (cl : Option String) (now : Nat),
        appUnique (updateApplication db user id st cl now).2) ∧
    (∀ (user : User) (id : ObjectId) (now : Nat),
        appUnique (acceptApplication db user id now).2) ∧
    (∀ (user : User) (id : ObjectId) (rr : Option String) (now : Nat),
        appUnique (rejectApplication db user id rr now).2) ∧
    (∀ (user : User) (sid : Option ObjectId) (d : Option Nat) (hrs : Option Rat)
        (desc : Option String) (rate : Option Rat),
        appUnique (createBooking db user sid d hrs desc rate).2) ∧
    (∀ (user : User) (id : ObjectId) (st : Option BookingStatus) (cr : Option String) (now : Nat),
        appUnique (updateBooking db user id st cr now).2) ∧
    (∀ (user : User) (sid cid mid : Option ObjectId),
        appUnique (createOrGetConversation db user sid cid mid).2) := by
  refine ⟨fun user mi cl hdup => createApplication_refuses_duplicate db user mi cl hdup,
    fun user mid cl => appUnique_createApplication db user mid cl h,
    fun user id st cl now => appUnique_updateApplication db user id st cl now h,
    fun user id now => appUnique_acceptApplication db user id now h,
    fun user id rr now => appUnique_rejectApplication db user id rr now h,
    fun user sid d hrs desc rate => ?_,
    fun user id st cr now => ?_,
    fun user sid cid mid => ?_⟩
  · show appsUnique ((createBooking db user sid d hrs desc rate).2).applications
    rw [createBooking_applications]
    exact h
  · show appsUnique ((updateBooking db user id st cr now).2).applications
    rw [updateBooking_applications]
    exact h
  · show appsUnique ((createOrGetConversation db user sid cid mid).2).applications
    rw [createOrGetConversation_applications]
    exact h

/-- Witness for C1: in the store holding student 2's application to
mission 10, a second `createApplication` by student 2 for mission 10 is
refused and the store is unchanged. -/
theorem application_pair_uniqueness_invariant_witness :
    ∃ e, createApplication dbPending uStudent (some 10) none
      = (Except.error e, dbPending) :=
  (application_pair_uniqueness_invariant dbPending (by decide)).1 uStudent 10 none
    ⟨appPending, by decide, by decide, by decide⟩

theorem missions_map_forced (l : List Mission) (mission m1 : Mission)
    (hm : mission ∈ l) (hid : m1.id = mission.id) (mid : ObjectId)
    (hmid : mission.id = mid) (hst : m1.status = MissionStatus.in_discussion) :
    (∃ m ∈ l.map (fun x => if x.id == m1.id then m1 else x), m.id = mid) ∧
    ∀ m ∈ l.map (fun x => if x.id == m1.id then m1 else x),
      m.id = mid → m.status = MissionStatus.in_discussion := by
  constructor
  · refine ⟨m1, List.mem_map.mpr ⟨mission, hm, ?_⟩, by rw [hid, hmid]⟩
    simp [hid]
  · intro m hmem hmid'
    rcases List.mem_map.mp hmem with ⟨x, hx, hfx⟩
    by_cases ex : x.id = m1.id
    · rw [← hfx]
      simp [ex, hst]
    · exfalso
      apply ex
      have hmx : m = x := by rw [← hfx]; simp [ex]
      rw [← hmx, hmid', ← hmid, ← hid]

/-- C2: whenever an Application transitions to `accepted` — through
`acceptApplication`, or through `updateApplication` with status
`accepted` — the Mission it references ends up stored with status
`in_discussion`, for every prior Mission status (no check of the prior
status is made). -/
theorem accepting_forces_mission_in_discussion (db : DB) (user : User) (id : ObjectId)
    (now : Nat) (app : Application) (db' : DB) :
    (acceptApplication db user id now = (Except.ok app, db') →
        (∃ m ∈ db'.missions, m.id = app.missionId) ∧
        ∀ m ∈ db'.missions, m.id = app.missionId → m.status = MissionStatus.in_discussion) ∧
    (∀ cl, updateApplication db user id (some AppStatus.accepted) cl now = (Except.ok app, db') →
        (∃ m ∈ db'.missions, m.id = app.missionId) ∧
        ∀ m ∈ db'.missions, m.id = app.missionId → m.status = MissionStatus.in_discussion) := by
  constructor
  · intro hok
    unfold acceptApplication at hok
    split at hok
    · simp at hok
    next application hfind =>
      split at hok
      · simp at hok
      next mission hfindm =>
        split at hok
        · simp at hok
        · simp only [Prod.mk.injEq, Except.ok.injEq] at hok
          obtain ⟨happ, hdb⟩ := hok
          subst hdb
          have hmem : mission ∈ db.missions := List.mem_of_find?_eq_some hfindm
          have hmid : mission.id = application.missionId := by
            have := List.find?_some hfindm
            simpa using this
          have happf : app.missionId = application.missionId := by rw [← happ]
          rw [happf]
          exact missions_map_forced db.missions mission
            { mission with status := MissionStatus.in_discussion } hmem rfl
            application.missionId hmid rfl
  · intro cl hok
    unfold updateApplication at hok
    split at hok
    · simp at hok
    next application hfind =>
      dsimp only at hok
      rcases hmo : db.missions.find? (fun m => m.id == application.missionId) with _ | mission
      · rw [hmo] at hok
        simp [Option.any] at hok
      · rw [hmo] at hok
        by_cases hown : mission.clientId = user.id
        · simp only [Option.any_some, hown, beq_self_eq_true, Bool.not_true, Bool.and_false,
            Bool.false_and, Bool.and_self, if_false, Bool.true_and, beq_iff_eq,
            reduceCtorEq, if_neg, Bool.not_eq_true] at hok
          simp only [Prod.mk.injEq, Except.ok.injEq] at hok
          obtain ⟨happ, hdb⟩ := hok
          subst hdb
          have hmem : mission ∈ db.missions := List.mem_of_find?_eq_some hmo
          have hmid : mission.id = application.missionId := by
            have := List.find?_some hmo
            simpa using this
          have happf : app.missionId = application.missionId := by
            rw [← happ, applyAppStatus_missionId, applyCoverLetter_missionId]
          rw [happf]
          exact missions_map_forced db.missions mission
            { mission with status := MissionStatus.in_discussion } hmem rfl
            application.missionId hmid rfl
        · simp [hown] at hok

theorem find?_key_of_nodup {α : Type} (key : α → Nat) (l : List α)
    (hnd : (l.map key).Nodup) (a : α) (ha : a ∈ l) :
    l.find? (fun x => key x == key a) = some a := by
  induction l with
  | nil => cases ha
  | cons hd tl ih =>
    rw [List.map_cons, List.nodup_cons] at hnd
    rcases List.mem_cons.mp ha with h | h
    · subst h
      simp [List.find?_cons]
    · have hne : key hd ≠ key a := fun he => hnd.1 (he ▸ List.mem_map_of_mem key h)
      rw [List.find?_cons]
      rw [show (key hd == key a) = false from beq_eq_false_iff_ne.mpr hne]
      exact ih hnd.2 h

/-- Witness for C2: accepting student 2's pending application to mission 10
leaves mission 10 stored as `in_discussion`. -/
theorem accepting_forces_mission_in_discussion_witness :
    (∃ m ∈ dbAccepted.missions, m.id = appAccepted.missionId) ∧
    ∀ m ∈ dbAccepted.missions, m.id = appAccepted.missionId →
      m.status = MissionStatus.in_discussion :=
  (accepting_forces_mission_in_discussion dbPending uClient 20 5 appAccepted dbAccepted).1 rfl

/-- C3: `updateBooking` changes a Booking's status only along the
whitelist table `validTransitions` = {pending → confirmed, pending →
cancelled, confirmed → completed, confirmed → cancelled}: a successful
status update implies the requested status is in the table entry of the
stored booking's current status, and a request outside the table by an
authorized party is rejected with the 400 invalid-transition error, the
store unchanged. -/
theorem booking_transition_whitelist (db : DB) (user : User)
    (st : BookingStatus) (cr : Option String) (now : Nat) :
    (∀ (id : ObjectId) (b' : Booking) (db' : DB),
        updateBooking db user id (some st) cr now = (Except.ok b', db') →
        ∃ b, db.bookings.find? (fun x => x.id == id) = some b ∧
          st ∈ validTransitions b.status ∧ b'.status = st) ∧
    (∀ b : Booking, b ∈ db.bookings → (db.bookings.map Booking.id).Nodup →
        (user.id = b.clientId ∨ user.id = b.studentId) →
        st ∉ validTransitions b.status →
        updateBooking db user b.id (some st) cr now =
          (Except.error ⟨400,
            "Cannot change status from " ++ b.status.str ++ " to " ++ st.str⟩, db)) := by
  constructor
  · intro id b' db' hok
    unfold updateBooking at hok
    split at hok
    · simp at hok
    next booking hfind =>
      dsimp only at hok
      split at hok
      · simp at hok
      · split at hok
        · simp at hok
        next hcont =>
          split at hok
          · simp at hok
          · simp only [Prod.mk.injEq, Except.ok.injEq] at hok
            obtain ⟨hb', _⟩ := hok
            refine ⟨booking, hfind, ?_, by rw [← hb', applyBookingStatus_status]⟩
            have : (validTransitions booking.status).contains st = true := by
              rcases hc : (validTransitions booking.status).contains st with _ | _
              · exact absurd (by rw [hc]; rfl) hcont
              · rfl
            simpa using this
  · intro b hb hnd hparty hnotin
    have hfind : db.bookings.find? (fun x => x.id == b.id) = some b :=
      find?_key_of_nodup Booking.id db.bookings hnd b hb
    have hcont : (validTransitions b.status).contains st = false := by
      simpa using hnotin
    unfold updateBooking
    rw [hfind]
    dsimp only
    rcases hparty with hp | hp
    · simp [← hp, hcont]
      exact fun hmem => absurd hmem hnotin
    · simp [← hp, hcont]
      exact hnotin

/-- Witness for C3: with the completed booking 30 stored, the client's
request `completed → confirmed` fails with the invalid-transition error
and the store is unchanged. -/
theorem booking_transition_whitelist_witness :
    updateBooking dbBookingDone uClient 30 (some BookingStatus.confirmed) none 9 =
      (Except.error ⟨400, "Cannot change status from completed to confirmed"⟩,
        dbBookingDone) :=
  (booking_transition_whitelist dbBookingDone uClient BookingStatus.confirmed none 9).2
    bookingCompleted (by decide) (by decide) (Or.inl rfl) (by decide)

/-- C4: `createApplication` creates a pending Application exactly when the
requester is a student, the target mission exists, the mission is `open`,
and no application for the (mission, student) pair exists; on any failed
precondition it returns an error and leaves the store unchanged (mission
ids are assumed unique in the store, as Mongo guarantees for `_id`). -/
theorem createApplication_success_iff (db : DB) (user : User) (mid : Option ObjectId)
    (cl : Option String) (hnd : (db.missions.map Mission.id).Nodup) :
    ((∃ app db', createApplication db user mid cl = (Except.ok app, db') ∧
        app.status = AppStatus.pending ∧ app ∈ db'.applications) ↔
      (user.role = Role.student ∧
       ∃ mi, mid = some mi ∧
         (∃ m ∈ db.missions, m.id = mi ∧ m.status = MissionStatus.open_) ∧
         ∀ a ∈ db.applications, ¬(a.missionId = mi ∧ a.studentId = user.id))) ∧
    (∀ e db', createApplication db user mid cl = (Except.error e, db') → db' = db) := by
  constructor
  · constructor
    · rintro ⟨app, db', hok, _, _⟩
      unfold createApplication at hok
      split at hok
      · simp at hok
      next hrole =>
        split at hok
        · simp at hok
        next mi =>
          split at hok
          · simp at hok
          next mission hfindm =>
            split at hok
            · simp at hok
            next hopen =>
              split at hok
              · simp at hok
              next hfinda =>
                refine ⟨not_ne_iff.mp hrole, mi, rfl, ?_, ?_⟩
                · refine ⟨mission, List.mem_of_find?_eq_some hfindm, ?_, not_ne_iff.mp hopen⟩
                  have := List.find?_some hfindm
                  simpa using this
                · intro a ha hpair
                  exact (List.find?_eq_none.mp hfinda a ha) (by simp [hpair.1, hpair.2])
    · rintro ⟨hrole, mi, rfl, ⟨m, hm, hmid, hopen⟩, hnodup⟩
      have hfindm : db.missions.find? (fun x => x.id == mi) = some m := by
        have := find?_key_of_nodup Mission.id db.missions hnd m hm
        rw [hmid] at this
        exact this
      have hfinda :
          db.applications.find? (fun a => a.missionId == mi && a.studentId == user.id)
            = none := by
        refine List.find?_eq_none.mpr fun a ha => ?_
        simp only [Bool.and_eq_true, beq_iff_eq, not_and]
        intro h1 h2
        exact hnodup a ha ⟨h1, h2⟩
      have hcomp : createApplication db user (some mi) cl =
          (Except.ok
            (⟨db.nextId, mi, user.id, (cl.map String.trim).getD "",
              AppStatus.pending, none, none, none⟩ : Application),
            { db with
                applications := db.applications ++
                  [⟨db.nextId, mi, user.id, (cl.map String.trim).getD "",
                    AppStatus.pending, none, none, none⟩]
                nextId := db.nextId + 1 }) := by
        unfold createApplication
        rw [if_neg (not_ne_iff.mpr hrole)]
        dsimp only
        rw [hfindm]
        dsimp only
        rw [if_neg (not_ne_iff.mpr hopen)]
        rw [hfinda]
      exact ⟨_, _, hcomp, rfl,
        List.mem_append.mpr (Or.inr (List.mem_singleton.mpr rfl))⟩
  · intro e db' herr
    unfold createApplication at herr
    split at herr
    · exact (congrArg Prod.snd herr).symm
    · split at herr
      · exact (congrArg Prod.snd herr).symm
      · split at herr
        · exact (congrArg Prod.snd herr).symm
        · split at herr
          · exact (congrArg Prod.snd herr).symm
          · split at herr
            · exact (congrArg Prod.snd herr).symm
            · simp at herr

/-- Witness for C4: in the base store, student 2 applying to the open
mission 10 with no prior application succeeds with a pending
application. -/
theorem createApplication_success_iff_witness :
    ∃ app db', createApplication dbBase uStudent (some 10) none = (Except.ok app, db') ∧
      app.status = AppStatus.pending ∧ app ∈ db'.applications :=
  (createApplication_success_iff dbBase uStudent (some 10) none (by decide)).1.mpr
    ⟨rfl, 10, rfl, ⟨missionOpen, by decide, rfl, rfl⟩, by decide⟩

/-- Counterexample to C5 as stated: in `dbAccepted` the only stored
application (id 20) already has status `accepted`, yet `rejectApplication`
by the mission owner succeeds and changes its status to `rejected` —
`accepted` is not a terminal state of the code. -/
theorem accepted_not_terminal_counterexample :
    (∀ a ∈ dbAccepted.applications, a.status = AppStatus.accepted) ∧
    ∃ app db', rejectApplication dbAccepted uClient 20 none 7 = (Except.ok app, db') ∧
      app.status = AppStatus.rejected ∧ app.id = 20 :=
  ⟨by decide, _, _, rfl, rfl, rfl⟩

/-- C5 amended: the code does not enforce terminality of `accepted` and
`rejected`.  None of `updateApplication`, `acceptApplication`,
`rejectApplication` inspects the current status: whenever the application
and its mission exist and the caller is the mission owner, each of them
overwrites the status — so an `accepted` application can become `rejected`
and vice versa. -/
theorem application_terminality_not_enforced (db : DB) (user : User) (id : ObjectId)
    (application : Application) (mission : Mission) (rr : Option String) (now : Nat)
    (hfind : db.applications.find? (fun a => a.id == id) = some application)
    (hfindm : db.missions.find? (fun m => m.id == application.missionId) = some mission)
    (hown : mission.clientId = user.id) :
    (∃ app' db', rejectApplication db user id rr now = (Except.ok app', db') ∧
        app'.status = AppStatus.rejected ∧ app'.id = application.id) ∧
    (∃ app' db', acceptApplication db user id now = (Except.ok app', db') ∧
        app'.status = AppStatus.accepted ∧ app'.id = application.id) ∧
    (∀ st : AppStatus, ∃ app' db',
        updateApplication db user id (some st) none now = (Except.ok app', db') ∧
        app'.status = st ∧ app'.id = application.id) := by
  refine ⟨?_, ?_, ?_⟩
  · unfold rejectApplication
    rw [hfind]
    dsimp only
    rw [hfindm]
    dsimp only
    rw [if_neg (not_ne_iff.mpr hown)]
    exact ⟨_, _, rfl, rfl, rfl⟩
  · unfold acceptApplication
    rw [hfind]
    dsimp only
    rw [hfindm]
    dsimp only
    rw [if_neg (not_ne_iff.mpr hown)]
    exact ⟨_, _, rfl, rfl, rfl⟩
  · intro st
    unfold updateApplication
    rw [hfind]
    dsimp only
    rw [hfindm]
    simp only [Option.any_some, hown, beq_self_eq_true, Bool.not_true, Bool.and_false,
      Bool.false_eq_true, if_false]
    exact ⟨_, _, rfl, applyAppStatus_status _ st now,
      by rw [applyAppStatus_id, applyCoverLetter_id]⟩

/-- Witness for the amended C5: the accepted application 20 is turned into
a rejected one by the mission owner. -/
theorem application_terminality_not_enforced_witness :
    ∃ app' db', rejectApplication dbAccepted uClient 20 none 7 = (Except.ok app', db') ∧
      app'.status = AppStatus.rejected ∧ app'.id = appAccepted.id :=
  (application_terminality_not_enforced dbAccepted uClient 20 appAccepted missionDisc
    none 7 rfl rfl rfl).1

/-- Counterexample to C6 as stated: in `dbAccepted` student 2 has already
applied to mission 10, but mission 10 is no longer `open` (the acceptance
moved it to `in_discussion`); re-applying fails with the mission-not-open
error — not with the duplicate (`Conflict`) error. -/
theorem duplicate_conflict_counterexample :
    (∃ a ∈ dbAccepted.applications, a.missionId = 10 ∧ a.studentId = uStudent.id) ∧
    createApplication dbAccepted uStudent (some 10) none =
      (Except.error ⟨400, "Mission is not open for applications"⟩, dbAccepted) :=
  ⟨⟨appAccepted, by decide, rfl, rfl⟩, rfl⟩

/-- C6 amended: when a student re-applies to a mission they have already
applied to, the operation fails and no Application is created; the failure
is the duplicate error (the branch the error taxonomy names `Conflict`)
whenever the mission still has status `open` — if the mission is no longer
open, the mission-not-open check fires first instead. -/
theorem duplicate_application_conflict (db : DB) (user : User) (mi : ObjectId)
    (cl : Option String) (mission : Mission)
    (hrole : user.role = Role.student)
    (hfindm : db.missions.find? (fun m => m.id == mi) = some mission)
    (hopen : mission.status = MissionStatus.open_)
    (hdup : ∃ a ∈ db.applications, a.missionId = mi ∧ a.studentId = user.id) :
    createApplication db user (some mi) cl =
      (Except.error ⟨400, "You have already applied to this mission"⟩, db) := by
  obtain ⟨a, ha, ham, has⟩ := hdup
  have hsome : (db.applications.find?
      (fun x => x.missionId == mi && x.studentId == user.id)).isSome = true :=
    List.find?_isSome.mpr ⟨a, ha, by simp [ham, has]⟩
  obtain ⟨x, hx⟩ := Option.isSome_iff_exists.mp hsome
  unfold createApplication
  rw [if_neg (not_ne_iff.mpr hrole)]
  dsimp only
  rw [hfindm]
  dsimp only
  rw [if_neg (not_ne_iff.mpr hopen), hx]

/-- Witness for the amended C6: student 2 re-applying to the still-open
mission 10 fails with the duplicate error, store unchanged. -/
theorem duplicate_application_conflict_witness :
    createApplication dbPending uStudent (some 10) none =
      (Except.error ⟨400, "You have already applied to this mission"⟩, dbPending) :=
  duplicate_application_conflict dbPending uStudent 10 none missionOpen rfl rfl rfl
    ⟨appPending, by decide, rfl, rfl⟩

/-- C7: only the student party on a Booking may move it `pending →
confirmed`: for a stored pending booking, a confirmation request by any
caller other than the student party — the client party included — fails
with a 403 Forbidden error and the store is unchanged; and either party
(client or student) may perform a cancellation allowed by the table. -/
theorem booking_confirm_student_only (db : DB) (user : User) (id : ObjectId)
    (cr : Option String) (now : Nat) (b : Booking)
    (hfind : db.bookings.find? (fun x => x.id == id) = some b) :
    (b.status = BookingStatus.pending → b.studentId ≠ user.id →
        ∃ msg, updateBooking db user id (some BookingStatus.confirmed) cr now =
          (Except.error ⟨403, msg⟩, db)) ∧
    ((user.id = b.clientId ∨ user.id = b.studentId) →
        BookingStatus.cancelled ∈ validTransitions b.status →
        ∃ b' db', updateBooking db user id (some BookingStatus.cancelled) cr now =
          (Except.ok b', db') ∧ b'.status = BookingStatus.cancelled) := by
  constructor
  · intro hpend hns
    have hstudf : (b.studentId == user.id) = false := beq_eq_false_iff_ne.mpr hns
    unfold updateBooking
    rw [hfind]
    dsimp only
    by_cases hc : b.clientId = user.id
    · have hcb : (b.clientId == user.id) = true := by simp [hc]
      have htab : ((validTransitions b.status).contains BookingStatus.confirmed) = true := by
        rw [hpend]; rfl
      refine ⟨"Only the student can confirm a booking", ?_⟩
      simp [hcb, hstudf, htab]
      simpa using htab
    · have hcb : (b.clientId == user.id) = false := beq_eq_false_iff_ne.mpr hc
      refine ⟨"Not authorized to update this booking", ?_⟩
      simp [hcb, hstudf]
  · rintro hparty hcanc
    have hauth : (!(b.clientId == user.id) && !(b.studentId == user.id)) = false := by
      rcases hparty with hp | hp
      · simp [← hp]
      · simp [← hp]
    have htab : ((validTransitions b.status).contains BookingStatus.cancelled) = true := by
      simpa using hcanc
    unfold updateBooking
    rw [hfind]
    dsimp only
    simp only [hauth, Bool.false_eq_true, if_false, htab, Bool.not_true,
      Bool.false_and, Bool.and_false,
      show (BookingStatus.cancelled == BookingStatus.confirmed) = false from rfl]
    exact ⟨_, _, rfl, applyBookingStatus_status b _ cr now⟩

/-- Witness for C7: the client party cannot confirm the pending booking 30
(403), while the student party's cancellation of it succeeds. -/
theorem booking_confirm_student_only_witness :
    (∃ msg, updateBooking dbBooking uClient 30 (some BookingStatus.confirmed) none 9 =
        (Except.error ⟨403, msg⟩, dbBooking)) ∧
    (∃ b' db', updateBooking dbBooking uStudent 30 (some BookingStatus.cancelled) none 9 =
        (Except.ok b', db') ∧ b'.status = BookingStatus.cancelled) :=
  ⟨(booking_confirm_student_only dbBooking uClient 30 none 9 bookingPending rfl).1
      rfl (by decide),
   (booking_confirm_student_only dbBooking uStudent 30 none 9 bookingPending rfl).2
      (Or.inr rfl) (by decide)⟩

/-- C8: `createOrGetConversation` is idempotent: after a successful call,
a second call — by either party — whose arguments resolve to the same
(client, student) pair and that carries the same mission argument returns
the very same Conversation and leaves the store unchanged, instead of
creating a duplicate. -/
theorem createOrGetConversation_idempotent (db : DB) (u1 u2 : User)
    (s1 c1 s2 c2 mid : Option ObjectId) (conv : Conversation) (db1 : DB)
    (h1 : createOrGetConversation db u1 s1 c1 mid = (Except.ok conv, db1))
    (hres : resolveConvParties u2 s2 c2 = resolveConvParties u1 s1 c1) :
    createOrGetConversation db1 u2 s2 c2 mid = (Except.ok conv, db1) := by
  unfold createOrGetConversation at h1 ⊢
  rw [hres]
  split at h1
  · simp at h1
  next rc rs hresolved =>
    split at h1
    · simp at h1
    next student hstud =>
      split at h1
      · simp at h1
      next hrole =>
        split at h1
        · simp at h1
        next client hcli =>
          split at h1
          · simp at h1
          next hcrole =>
            split at h1
            next conv0 hconv =>
              simp only [Prod.mk.injEq, Except.ok.injEq] at h1
              obtain ⟨hconveq, hdbeq⟩ := h1
              subst hdbeq
              rw [hstud]
              dsimp only
              rw [if_neg hrole, hcli]
              dsimp only
              rw [if_neg hcrole, hconv]
              dsimp only
              rw [hconveq]
            next hconvnone =>
              simp only [Prod.mk.injEq, Except.ok.injEq] at h1
              obtain ⟨hconveq, hdbeq⟩ := h1
              subst hdbeq
              dsimp only
              rw [hstud]
              dsimp only
              rw [if_neg hrole, hcli]
              dsimp only
              rw [if_neg hcrole]
              have hfind2 : (db.conversations ++
                  [(⟨db.nextId, rc, rs, mid, none, none⟩ : Conversation)]).find?
                    (fun c => c.clientId == rc && c.studentId == rs && c.missionId == mid)
                  = some ⟨db.nextId, rc, rs, mid, none, none⟩ := by
                rw [List.find?_append, hconvnone]
                simp
              rw [hfind2]
              dsimp only
              rw [hconveq]

/-- Witness for C8: client 1 opens the conversation with student 2; the
student's own request for the same pair returns the stored conversation
(id 20) and the store is unchanged. -/
theorem createOrGetConversation_idempotent_witness :
    createOrGetConversation dbConv uStudent none (some 1) none =
      (Except.ok convCS, dbConv) :=
  createOrGetConversation_idempotent dbBase uClient uStudent (some 2) none none (some 1)
    none convCS dbConv rfl rfl

/-- C9: a Booking's `totalAmount` equals `hourlyRate * hours` at creation,
and `updateBooking` — whatever transition is requested and whatever its
outcome — never changes the `totalAmount`, `hourlyRate` or `hours` of any
stored booking (booking ids assumed unique in the store, as Mongo
guarantees for `_id`). -/
theorem booking_money_frame (db : DB) (user : User)
    (hnd : (db.bookings.map Booking.id).Nodup) :
    (∀ (sid : Option ObjectId) (d : Option Nat) (hrs : Option Rat) (desc : Option String)
        (rate : Option Rat) (b : Booking) (db' : DB),
        createBooking db user sid d hrs desc rate = (Except.ok b, db') →
        b.totalAmount = b.hourlyRate * b.hours) ∧
    (∀ (id : ObjectId) (st : Option BookingStatus) (cr : Option String) (now : Nat),
        List.Forall₂
          (fun x' x => x'.totalAmount = x.totalAmount ∧
            x'.hourlyRate = x.hourlyRate ∧ x'.hours = x.hours)
          ((updateBooking db user id st cr now).2).bookings db.bookings) := by
  constructor
  · intro sid d hrs desc rate b db' hok
    unfold createBooking at hok
    split at hok
    · split at hok
      · simp at hok
      · split at hok
        · simp at hok
        next student hstud =>
          split at hok
          · simp at hok
          · dsimp only at hok
            split at hok
            · simp at hok
            · simp only [Prod.mk.injEq, Except.ok.injEq] at hok
              obtain ⟨hb, _⟩ := hok
              rw [← hb]
    · simp at hok
  · intro id st cr now
    unfold updateBooking
    split
    · exact List.forall₂_same.mpr fun x _ => ⟨rfl, rfl, rfl⟩
    next booking hfind =>
      have hmem : booking ∈ db.bookings := List.mem_of_find?_eq_some hfind
      dsimp only
      split
      · exact List.forall₂_same.mpr fun x _ => ⟨rfl, rfl, rfl⟩
      · split
        · show List.Forall₂ _ (saveBooking db booking).bookings db.bookings
          rw [saveBooking_bookings, List.forall₂_map_left_iff]
          refine List.forall₂_same.mpr fun x hx => ?_
          by_cases hxid : x.id = booking.id
          · have hxb : x = booking :=
              List.inj_on_of_nodup_map hnd hx hmem (by rw [hxid])
            simp [hxid, hxb]
          · simp [hxid]
        next st2 =>
          split
          · exact List.forall₂_same.mpr fun x _ => ⟨rfl, rfl, rfl⟩
          · split
            · exact List.forall₂_same.mpr fun x _ => ⟨rfl, rfl, rfl⟩
            · show List.Forall₂ _
                (saveBooking db (applyBookingStatus booking st2 cr now)).bookings db.bookings
              rw [saveBooking_bookings, List.forall₂_map_left_iff]
              refine List.forall₂_same.mpr fun x hx => ?_
              by_cases hxid : x.id = (applyBookingStatus booking st2 cr now).id
              · have hxb : x = booking :=
                  List.inj_on_of_nodup_map hnd hx hmem
                    (by rw [hxid, applyBookingStatus_id])
                simp [hxid, hxb, applyBookingStatus_id, applyBookingStatus_totalAmount,
                  applyBookingStatus_hourlyRate, applyBookingStatus_hours]
              · simp [hxid]

/-- Witness for C9: client 1's booking of student 2 (3 hours at rate 20)
is created with total 60 = 20 * 3, and the student's confirmation leaves
total, rate and hours of every stored booking unchanged. -/
theorem booking_money_frame_witness :
    (bookingNew.totalAmount = bookingNew.hourlyRate * bookingNew.hours) ∧
    List.Forall₂
      (fun x' x => x'.totalAmount = x.totalAmount ∧
        x'.hourlyRate = x.hourlyRate ∧ x'.hours = x.hours)
      ((updateBooking dbBooking uStudent 30 (some BookingStatus.confirmed) none 9).2).bookings
      dbBooking.bookings :=
  ⟨(booking_money_frame dbBase uClient (by decide)).1 (some 2) (some 100) (some 3)
      (some "work") (some 20) bookingNew dbAfterCreate rfl,
   (booking_money_frame dbBooking uStudent (by decide)).2 30
      (some BookingStatus.confirmed) none 9⟩

/-- Counterexample to C10 as stated: customer 1 supplying their own id as
`studentId` fails — but with the 404 `Student not found` error (the
student lookup and role check run before the self-booking validation),
not with a validation error. -/
theorem self_booking_validation_counterexample :
    createBooking dbBase uClient (some 1) (some 100) (some 3) (some "work") (some 20) =
      (Except.error ⟨404, "Student not found"⟩, dbBase) := rfl

/-- C10 amended: a self-booking always fails and no Booking is created —
with the 400 `You cannot book yourself` validation error when the caller
is a stored student and all fields are supplied, and with the 404
`Student not found` error otherwise; consequently every created Booking
has clientId ≠ studentId. -/
theorem createBooking_no_self_booking (db : DB) (user : User) :
    (∀ (d : Option Nat) (hrs : Option Rat) (desc : Option String) (rate : Option Rat),
        ∃ e, createBooking db user (some user.id) d hrs desc rate = (Except.error e, db)) ∧
    (∀ (sid : Option ObjectId) (d : Option Nat) (hrs : Option Rat) (desc : Option String)
        (rate : Option Rat) (b : Booking) (db' : DB),
        createBooking db user sid d hrs desc rate = (Except.ok b, db') →
        b.clientId ≠ b.studentId) ∧
    (∀ (stu : User) (d : Nat) (hrs : Rat) (desc : String) (rate : Rat),
        db.users.find? (fun u => u.id == user.id) = some stu →
        stu.role = Role.student →
        ¬(hrs == 0 || desc.isEmpty || rate == 0) = true →
        createBooking db user (some user.id) (some d) (some hrs) (some desc) (some rate) =
          (Except.error ⟨400, "You cannot book yourself"⟩, db)) := by
  refine ⟨?_, ?_, ?_⟩
  · intro d hrs desc rate
    rcases d with _ | d0
    · exact ⟨_, rfl⟩
    rcases hrs with _ | h0
    · exact ⟨_, rfl⟩
    rcases desc with _ | desc0
    · exact ⟨_, rfl⟩
    rcases rate with _ | r0
    · exact ⟨_, rfl⟩
    unfold createBooking
    dsimp only
    split
    · exact ⟨_, rfl⟩
    · split
      · exact ⟨_, rfl⟩
      · split
        · exact ⟨_, rfl⟩
        · refine ⟨⟨400, "You cannot book yourself"⟩, ?_⟩
          rw [if_pos (beq_self_eq_true user.id)]
  · intro sid d hrs desc rate b db' hok
    unfold createBooking at hok
    split at hok
    · split at hok
      · simp at hok
      · split at hok
        · simp at hok
        · split at hok
          · simp at hok
          · dsimp only at hok
            split at hok
            · simp at hok
            next hself =>
              simp only [Prod.mk.injEq, Except.ok.injEq] at hok
              obtain ⟨hb, _⟩ := hok
              rw [← hb]
              intro hcon
              exact hself (by simpa using hcon)
    · simp at hok
  · intro stu d hrs desc rate hfind hrole hfields
    unfold createBooking
    dsimp only
    rw [if_neg hfields, hfind]
    dsimp only
    rw [if_neg (not_ne_iff.mpr hrole), if_pos (beq_self_eq_true user.id)]

/-- Witness for the amended C10: student 2 attempting to book themselves
fails with the self-booking validation error, store unchanged. -/
theorem createBooking_no_self_booking_witness :
    createBooking dbBase uStudent (some 2) (some 100) (some 3) (some "desc") (some 20) =
      (Except.error ⟨400, "You cannot book yourself"⟩, dbBase) :=
  (createBooking_no_self_booking dbBase uStudent).2.2 uStudent 100 3 "desc" 20
    rfl rfl (by decide)

end PM
